import Mathlib

/-!
Verification development for the s3-large-file-uploads repository.

The Python core (`src/core/utils.py`, `src/core/main.py`) is shallowly
embedded below.  External collaborators (the boto3 S3 client, the local
filesystem) are modelled as explicit parameters: the result of
`s3_client.get_object` becomes an `S3GetResult`-valued oracle, the transfer
performed by `upload_fileobj` becomes a function returning `Option String`
(`none` = success, `some msg` = the raised exception's message), and the
directory listings consumed by `os.listdir` / `os.walk` become explicit list
arguments.  Python string operations used by the code (`str.replace`,
`str.split`, `str.endswith`, `os.path.join` in its POSIX form) are embedded
as structurally recursive functions on `List Char` so that every definition
evaluates by kernel reduction.
-/

namespace S3Up

/-- Worker for Python `str.replace` with a nonempty pattern, scanning left to
right over the character list.  The `skip` counter consumes the remaining
characters of a pattern occurrence that was just replaced (Python replaces
non-overlapping occurrences left to right). -/
def pyReplaceGo (pat rep : List Char) : List Char → Nat → List Char
  | [], _ => []
  | _ :: rest, skip+1 => pyReplaceGo pat rep rest skip
  | c :: rest, 0 =>
      if pat.isPrefixOf (c :: rest) then
        rep ++ pyReplaceGo pat rep rest (pat.length - 1)
      else
        c :: pyReplaceGo pat rep rest 0

/-- Python `s.replace(pat, rep)` on character lists.  For the empty pattern
Python inserts `rep` before every character and once at the end
(`"ab".replace("", "-") = "-a-b-"`); for a nonempty pattern every
non-overlapping occurrence is replaced, scanning left to right. -/
def pyReplace (s pat rep : List Char) : List Char :=
  match pat with
  | [] => rep ++ (s.map (fun c => c :: rep)).flatten
  | _ :: _ => pyReplaceGo pat rep s 0

/-- Python `s.replace(pat, rep)` on strings. -/
def pyReplaceStr (s pat rep : String) : String :=
  ⟨pyReplace s.data pat.data rep.data⟩

/-- Python `s.endswith(suffix)` for a single suffix: case-sensitive, exact
suffix comparison. -/
def pyEndsWith (s sfx : String) : Bool :=
  sfx.data.isSuffixOf s.data

/-- Python `s.split(sep)` for a one-character separator, on character lists.
Always returns a nonempty list of groups; `"".split(sep) = [""]`. -/
def splitChar (sep : Char) : List Char → List (List Char)
  | [] => [[]]
  | c :: rest =>
      let r := splitChar sep rest
      if c = sep then [] :: r
      else (c :: r.headD []) :: r.tail

/-- Python `file.split('/')[-1]`: the last `'/'`-separated component of the
path. -/
def lastComponent (file : String) : String :=
  ⟨(splitChar '/' file.data).getLastD []⟩

/-- `os.path.join(root, name)` in its POSIX form: an absolute `name` wins;
an empty `root` or a `root` already ending in the separator is concatenated
directly; otherwise a single separator is inserted. -/
def posixJoin (root name : String) : String :=
  if ['/'].isPrefixOf name.data then name
  else if root = "" then name
  else if ['/'].isSuffixOf root.data then root ++ name
  else root ++ "/" ++ name

/-- Python truthiness of an optional string (`None` and `""` are falsy). -/
def truthy : Option String → Bool
  | none => false
  | some s => s ≠ ""

/-- Whether `pat` occurs as a contiguous substring anywhere in `s`
(specification predicate used to state properties of `pyReplace`). -/
def occursIn (pat : List Char) : List Char → Bool
  | [] => pat.isEmpty
  | c :: rest => pat.isPrefixOf (c :: rest) || occursIn pat rest

example : pyReplaceStr "/data/videos/x.mp4" "/data/videos" "media/" = "media//x.mp4" := by decide
example : pyReplaceStr "ab" "" "-" = "-a-b-" := by decide
example : pyReplaceStr "/data/x/data/y" "/data" "p/" = "p//xp//y" := by decide
example : pyEndsWith "foo.mp4" ".mp4" = true := by decide
example : pyEndsWith "foo.MP4" ".mp4" = false := by decide
example : lastComponent "/data/videos/x.mp4" = "x.mp4" := by decide
example : lastComponent "C:\\a\\b.mp4" = "C:\\a\\b.mp4" := by decide
example : posixJoin "/data/videos" "x.mp4" = "/data/videos/x.mp4" := by decide

/-- The possible outcomes of `s3_client.get_object` that
`check_object_exists` distinguishes: a successful retrieval, the
`NoSuchKey` exception, or a `botocore` `ClientError` carrying an error
code. -/
inductive S3GetResult where
  | success : S3GetResult
  | noSuchKey : S3GetResult
  | clientError (code : String) : S3GetResult
deriving DecidableEq

/-- `check_object_exists` from `src/core/utils.py`: `get_object` succeeding
means the object exists; `NoSuchKey` means it does not; a `ClientError`
whose code is `"InvalidObjectState"` is logged and treated as existing;
every other `ClientError` yields `false`.  The `get_object` call is
modelled by the oracle `getObject` applied to bucket and key. -/
def check_object_exists (getObject : String → String → S3GetResult)
    (bucket_name object_key : String) : Bool :=
  match getObject bucket_name object_key with
  | .success => true
  | .noSuchKey => false
  | .clientError code => if code = "InvalidObjectState" then true else false

/-- `clean_file_list` from `src/core/utils.py`: when the `extensions`
tuple is truthy (nonempty — `None` and `()` are both falsy and modelled by
`[]`), keep only file names for which Python's
`file.endswith(extensions)` holds, i.e. some extension is a suffix; then
join every surviving name to `root_path` and replace every backslash with
a forward slash. -/
def clean_file_list (root_path : String) (files : List String)
    (extensions : List String) : List String :=
  let files :=
    if extensions ≠ [] then
      files.filter (fun file => extensions.any (fun e => pyEndsWith file e))
    else files
  files.map (fun file => pyReplaceStr (posixJoin root_path file) "\\" "/")

/-- `get_filenames_flat` from `src/core/utils.py`.  `os.listdir(root_path)`
is modelled by `listdir`, a list of `(name, is_directory)` pairs in listing
order; the comprehension drops directory entries, and the survivors go
through `clean_file_list`. -/
def get_filenames_flat (listdir : List (String × Bool)) (root_path : String)
    (extensions : List String) : List String :=
  clean_file_list root_path ((listdir.filter (fun nb => !nb.2)).map (fun nb => nb.1)) extensions

/-- `get_filenames_recursive` from `src/core/utils.py`. `os.walk(root_path)`
is modelled by `walk`, the list of `(root, files)` pairs it yields in
traversal order; each batch goes through `clean_file_list` with its own
root and the results are concatenated. -/
def get_filenames_recursive (walk : List (String × List String))
    (extensions : List String) : List String :=
  (walk.map (fun rf => clean_file_list rf.1 rf.2 extensions)).flatten

/-- `get_filenames` from `src/core/utils.py`: dispatch on `recursive`. -/
def get_filenames (recursive : Bool) (root_path : String)
    (extensions : List String) (listdir : List (String × Bool))
    (walk : List (String × List String)) : List String :=
  if recursive then get_filenames_recursive walk extensions
  else get_filenames_flat listdir root_path extensions

/-- The per-file key computation of `upload_files`
(`src/core/utils.py`, lines 364-369): with a truthy key prefix and a
directory root, `file.replace(root_path, key_prefix)`; with a truthy key
prefix and a single-file root, the prefix concatenated with
`file.split('/')[-1]`; otherwise the file path itself.  A `None` or empty
prefix is falsy, so both prefix branches require `truthy kp`. -/
def deriveKey (file root_path : String) (kp : Option String)
    (root_path_is_directory : Bool) : String :=
  if truthy kp && root_path_is_directory then
    pyReplaceStr file root_path (kp.getD "")
  else if truthy kp && !root_path_is_directory then
    (kp.getD "") ++ lastComponent file
  else file

/-- The observable record of one iteration of the `upload_files` loop:
the file processed, the key derived for it, the existence-oracle answer,
and whether `upload_file_to_s3` was invoked for it. -/
structure FileResult where
  file : String
  key : String
  existed : Bool
  transferred : Bool
deriving DecidableEq

/-- `upload_files` from `src/core/utils.py`.  For each file in order: derive
the key, call `check_object_exists`, and when `(not file_exists) or
(file_exists and replace_if_exists)` holds invoke the transfer, modelled by
`transfer file bucket key` (`none` = success, `some msg` = the exception
raised by `upload_fileobj`).  The surrounding `try/except` re-raises any
exception, so a failed transfer ends the loop: the function returns the
results produced so far (the failed file included) together with
`some msg`, and a clean run returns `none`. -/
def uploadFiles (getObject : String → String → S3GetResult)
    (transfer : String → String → String → Option String)
    (root_path : String) (replace_if_exists root_path_is_directory : Bool)
    (bucket_name : String) (kp : Option String) :
    List String → List FileResult × Option String
  | [] => ([], none)
  | file :: rest =>
      let key := deriveKey file root_path kp root_path_is_directory
      let file_exists := check_object_exists getObject bucket_name key
      if (!file_exists) || (file_exists && replace_if_exists) then
        match transfer file bucket_name key with
        | none =>
            let r := uploadFiles getObject transfer root_path replace_if_exists
              root_path_is_directory bucket_name kp rest
            (⟨file, key, file_exists, true⟩ :: r.1, r.2)
        | some msg => ([⟨file, key, file_exists, true⟩], some msg)
      else
        let r := uploadFiles getObject transfer root_path replace_if_exists
          root_path_is_directory bucket_name kp rest
        (⟨file, key, file_exists, false⟩ :: r.1, r.2)

/-- The file-list computation of `main` (`src/core/main.py`, lines 75-87):
for a directory root the enumerator `get_filenames` is used with the given
`recursive` flag and `extensions`; for a single-file root the list is
exactly `[root_path]` (the `recursive` flag only triggers a warning). -/
def mainFiles (root_path_is_directory : Bool) (root_path : String)
    (recursive : Bool) (extensions : List String)
    (listdir : List (String × Bool)) (walk : List (String × List String)) :
    List String :=
  if root_path_is_directory then
    get_filenames recursive root_path extensions listdir walk
  else [root_path]

/-- Whether a path string contains a backslash character. -/
def hasBackslash (s : String) : Bool :=
  s.data.contains '\\'

/-- The state of a `ProgressPercentage` callback object
(`src/core/utils.py`, lines 21-37): the tracked filename, the file's total
size as fixed at construction, and the bytes seen so far.  Sizes and byte
counts are modelled over `ℚ`; the source stores the size as a Python float
and the divisions performed below are exact in both models (the final
callback divides the size by itself). -/
structure ProgressPercentage where
  filename : String
  size : ℚ
  seen_so_far : ℚ
deriving DecidableEq

/-- `ProgressPercentage.__init__`: record the filename and total size and
start the byte counter at zero.  `os.path.getsize(filename)` is modelled by
passing the size explicitly. -/
def ProgressPercentage.init (filename : String) (size : ℚ) : ProgressPercentage :=
  ⟨filename, size, 0⟩

/-- `ProgressPercentage.__call__(bytes_amount)`: add the delta to the byte
counter and emit `(seen_so_far / size) * 100`.  Returns the updated object
and the emitted percentage (the lock and the stdout formatting are not
modelled; the percentage is the value the source formats with `%.2f`). -/
def ProgressPercentage.call (p : ProgressPercentage) (bytes_amount : ℚ) :
    ProgressPercentage × ℚ :=
  let seen := p.seen_so_far + bytes_amount
  (⟨p.filename, p.size, seen⟩, (seen / p.size) * 100)

/-- Run a `ProgressPercentage` object over a list of callback deltas,
collecting the emitted percentages in order. -/
def runProgress (p : ProgressPercentage) : List ℚ → ProgressPercentage × List ℚ
  | [] => (p, [])
  | d :: ds =>
      let step := p.call d
      let r := runProgress step.1 ds
      (r.1, step.2 :: r.2)

example :
    check_object_exists (fun _ _ => .clientError "InvalidObjectState") "b" "k" = true := by decide
example :
    check_object_exists (fun _ _ => .clientError "AccessDenied") "b" "k" = false := by decide
example : deriveKey "/data/videos/x.mp4" "/data/videos" (some "media/") true = "media//x.mp4" := by
  decide
example : deriveKey "C:/u/f.mp4" "C:/u/f.mp4" (some "p/") false = "p/f.mp4" := by decide
example : deriveKey "/a/b.txt" "/a" none true = "/a/b.txt" := by decide
example : clean_file_list "/d" ["a.mp4", "b.txt"] [".mp4"] = ["/d/a.mp4"] := by decide
example : mainFiles false "C:\\u\\f.mp4" false [".mp4"] [] [] = ["C:\\u\\f.mp4"] := by decide
example :
    (runProgress (ProgressPercentage.init "f" 4) [1, 3]).2 = [25, 100] := by
  norm_num [runProgress, ProgressPercentage.init, ProgressPercentage.call]

lemma data_ne_nil {s : String} (h : s ≠ "") : s.data ≠ [] := by
  intro hc
  exact h (String.ext hc)

lemma pyReplaceGo_skip (pat rep : List Char) (xs rest : List Char) :
    pyReplaceGo pat rep (xs ++ rest) xs.length = pyReplaceGo pat rep rest 0 := by
  induction xs with
  | nil => rfl
  | cons x xs ih => simpa [pyReplaceGo] using ih

lemma pyReplaceGo_no_occurrence (pat rep : List Char) (s : List Char)
    (h : occursIn pat s = false) : pyReplaceGo pat rep s 0 = s := by
  induction s with
  | nil => rfl
  | cons c rest ih =>
      rw [occursIn, Bool.or_eq_false_iff] at h
      rw [pyReplaceGo, h.1]
      simp only [Bool.false_eq_true, if_false]
      rw [ih h.2]

lemma isPrefixOf_append_self (pat rest : List Char) :
    pat.isPrefixOf (pat ++ rest) = true := by
  induction pat with
  | nil => simp [List.isPrefixOf]
  | cons p ps ih => simp [List.isPrefixOf, ih]

lemma pyReplaceGo_append (pat rep rest : List Char) (hpat : pat ≠ []) :
    pyReplaceGo pat rep (pat ++ rest) 0 = rep ++ pyReplaceGo pat rep rest 0 := by
  obtain ⟨p, ps, rfl⟩ := List.exists_cons_of_ne_nil hpat
  have hpre : (p :: ps).isPrefixOf (p :: ps ++ rest) = true :=
    isPrefixOf_append_self (p :: ps) rest
  rw [List.cons_append, pyReplaceGo, ← List.cons_append, hpre]
  simp only [if_true, List.length_cons, Nat.add_sub_cancel]
  rw [pyReplaceGo_skip]

lemma pyReplaceGo_backslash_free (s : List Char) :
    ('\\' : Char) ∉ pyReplaceGo ['\\'] ['/'] s 0 := by
  induction s with
  | nil => simp [pyReplaceGo]
  | cons c rest ih =>
      by_cases hc : c = '\\'
      · subst hc
        have hpre : (['\\'] : List Char).isPrefixOf ('\\' :: rest) = true := by
          simp [List.isPrefixOf]
        rw [pyReplaceGo, hpre]
        simpa using ih
      · have hpre : (['\\'] : List Char).isPrefixOf (c :: rest) = false := by
          simp [List.isPrefixOf]
          exact fun hcc => hc hcc.symm
        rw [pyReplaceGo, hpre]
        simp only [Bool.false_eq_true, if_false, List.mem_cons]
        rintro (rfl | hmem)
        · exact hc rfl
        · exact ih hmem

lemma getLastD_of_ne_nil {α : Type} {l : List α} (h : l ≠ []) (a b : α) :
    l.getLastD a = l.getLastD b := by
  rcases l with _ | ⟨x, xs⟩
  · exact absurd rfl h
  · rw [List.getLastD_eq_getLast?, List.getLastD_eq_getLast?]
    simp [List.getLast?]

lemma splitChar_ne_nil (sep : Char) (s : List Char) : splitChar sep s ≠ [] := by
  cases s with
  | nil => simp [splitChar]
  | cons c rest => by_cases hc : c = sep <;> simp [splitChar, hc]

lemma splitChar_two_le (sep : Char) (s : List Char) (h : sep ∈ s) :
    2 ≤ (splitChar sep s).length := by
  induction s with
  | nil => simp at h
  | cons c rest ih =>
      by_cases hc : c = sep
      · have := List.length_pos.mpr (splitChar_ne_nil sep rest)
        simp only [splitChar, hc, if_true, List.length_cons]
        omega
      · have hrest : sep ∈ rest := by
          rcases List.mem_cons.mp h with rfl | hm
          · exact absurd rfl hc
          · exact hm
        have h2 := ih hrest
        have h3 : 1 ≤ (splitChar sep rest).tail.length := by
          rw [List.length_tail]
          omega
        simp only [splitChar, hc, if_false, List.length_cons]
        omega

lemma splitChar_of_not_mem (sep : Char) (s : List Char) (h : sep ∉ s) :
    splitChar sep s = [s] := by
  induction s with
  | nil => rfl
  | cons c rest ih =>
      have hc : ¬ c = sep := fun hc => h (hc ▸ List.mem_cons_self c rest)
      have hrest : sep ∉ rest := fun hm => h (List.mem_cons_of_mem c hm)
      simp [splitChar, hc, ih hrest]

lemma splitChar_getLastD_append (sep : Char) (xs ys : List Char) :
    (splitChar sep (xs ++ sep :: ys)).getLastD [] =
      (splitChar sep ys).getLastD [] := by
  induction xs with
  | nil =>
      rw [List.nil_append]
      simp only [splitChar, if_true]
      rw [List.getLastD_cons]
  | cons x xs ih =>
      rw [List.cons_append]
      by_cases hx : x = sep
      · simp only [splitChar, hx, if_true]
        rw [List.getLastD_cons, ih]
      · simp only [splitChar, hx, if_false]
        rw [List.getLastD_cons]
        have h2 := splitChar_two_le sep (xs ++ sep :: ys) (by simp)
        rcases hs : splitChar sep (xs ++ sep :: ys) with _ | ⟨grp, gs⟩
        · exact absurd hs (splitChar_ne_nil sep _)
        · have hgs : gs ≠ [] := by
            rw [hs] at h2
            simp only [List.length_cons] at h2
            intro hc
            rw [hc] at h2
            simp at h2
          rw [← ih, hs]
          simp only [List.tail_cons, List.getLastD_cons]
          exact getLastD_of_ne_nil hgs _ _

lemma upload_cond_true {ex rep : Bool} (h : ((!ex) || (ex && rep)) = true) :
    ex = false ∨ (ex = true ∧ rep = true) := by
  cases ex <;> cases rep <;> simp_all

lemma upload_cond_false {ex rep : Bool} (h : ((!ex) || (ex && rep)) = false) :
    ex = true ∧ rep = false := by
  cases ex <;> cases rep <;> simp_all

/-- C1: for every file processed by the `upload_files` loop, the recorded
key is the derived key, the recorded existence bit is the Existence
Oracle's answer for that key, and the transfer is invoked if and only if
the oracle reported the key absent, or reported it present and
`replace_if_exists` is true. -/
theorem C1_transfer_iff_absent_or_replace
    (getObject : String → String → S3GetResult)
    (transfer : String → String → String → Option String)
    (root_path : String) (rep dir : Bool) (bucket : String) (kp : Option String)
    (files : List String) (r : FileResult)
    (hr : r ∈ (uploadFiles getObject transfer root_path rep dir bucket kp files).1) :
    r.key = deriveKey r.file root_path kp dir ∧
    r.existed = check_object_exists getObject bucket r.key ∧
    (r.transferred = true ↔
      (r.existed = false ∨ (r.existed = true ∧ rep = true))) := by
  induction files with
  | nil => simp [uploadFiles] at hr
  | cons file fs ih =>
      simp only [uploadFiles] at hr
      split at hr
      · rename_i hcond
        split at hr
        · rename_i htrans
          simp only [List.mem_cons] at hr
          rcases hr with rfl | hm
          · exact ⟨rfl, rfl, fun _ => upload_cond_true hcond, fun _ => rfl⟩
          · exact ih hm
        · rename_i msg htrans
          simp only [List.mem_cons, List.not_mem_nil, or_false] at hr
          subst hr
          exact ⟨rfl, rfl, fun _ => upload_cond_true hcond, fun _ => rfl⟩
      · rename_i hcond
        simp only [List.mem_cons] at hr
        rcases hr with rfl | hm
        · refine ⟨rfl, rfl, ?_⟩
          have hf := Bool.eq_false_iff.mpr hcond
          obtain ⟨hex, hrep⟩ := upload_cond_false hf
          subst hrep
          rw [hex]
          simp
        · exact ih hm

/-- A closed witness instance of C1: one file, an oracle reporting the key
present, and `replace_if_exists = true`; the transfer is invoked. -/
theorem C1_transfer_iff_absent_or_replace_witness :
    (⟨"f1", "f1", true, true⟩ : FileResult) ∈
      (uploadFiles (fun _ _ => S3GetResult.success) (fun _ _ _ => none)
        "/r" true true "b" none ["f1"]).1 ∧
    ((⟨"f1", "f1", true, true⟩ : FileResult).transferred = true ↔
      ((⟨"f1", "f1", true, true⟩ : FileResult).existed = false ∨
        ((⟨"f1", "f1", true, true⟩ : FileResult).existed = true ∧ true = true))) :=
  ⟨by decide,
    (C1_transfer_iff_absent_or_replace (fun _ _ => S3GetResult.success)
      (fun _ _ _ => none) "/r" true true "b" none ["f1"] _ (by decide)).2.2⟩

/-- C2 counterexample: a `ClientError` with code `"InvalidObjectState"` is a
retrieval error that is not a "not found" signal, yet `check_object_exists`
returns `true` for it, not `false`. -/
theorem C2_counterexample_invalid_object_state :
    check_object_exists (fun _ _ => S3GetResult.clientError "InvalidObjectState")
      "bucket" "key" = true := by decide

/-- C2 amended: the existence check returns `false` on the clean
`NoSuchKey` "not found" signal (never raising for it), returns `false` for
every other `ClientError` except the one with code `"InvalidObjectState"`,
for which it returns `true` (the object exists but is in an invalid state),
and returns `true` on a successful retrieval. -/
theorem C2_existence_check_amended
    (getObject : String → String → S3GetResult) (b k code : String) :
    (getObject b k = S3GetResult.noSuchKey →
      check_object_exists getObject b k = false) ∧
    (getObject b k = S3GetResult.clientError code →
      code ≠ "InvalidObjectState" → check_object_exists getObject b k = false) ∧
    (getObject b k = S3GetResult.clientError "InvalidObjectState" →
      check_object_exists getObject b k = true) ∧
    (getObject b k = S3GetResult.success →
      check_object_exists getObject b k = true) := by
  refine ⟨fun h => ?_, fun h hc => ?_, fun h => ?_, fun h => ?_⟩
  · simp [check_object_exists, h]
  · simp [check_object_exists, h, hc]
  · simp [check_object_exists, h]
  · simp [check_object_exists, h]

/-- A closed witness instance of C2: an ambiguous `AccessDenied` retrieval
error is reported as "absent". -/
theorem C2_existence_check_amended_witness :
    check_object_exists (fun _ _ => S3GetResult.clientError "AccessDenied")
      "bucket" "key" = false :=
  (C2_existence_check_amended (fun _ _ => S3GetResult.clientError "AccessDenied")
    "bucket" "key" "AccessDenied").2.1 rfl (by decide)

/-- C3 counterexample: the spec's own scenario derives `media//x.mp4`
(`str.replace` keeps the slash that follows the replaced root segment), not
`media/x.mp4`; and an interior occurrence of the `root_path` string IS
replaced, contradicting the claim that only the leading occurrence is
substituted. -/
theorem C3_counterexample_replace_all :
    deriveKey "/data/videos/x.mp4" "/data/videos" (some "media/") true ≠
      "media/x.mp4" ∧
    deriveKey "/data/x/data/y" "/data" (some "p/") true ≠ "p//x/data/y" ∧
    deriveKey "/data/x/data/y" "/data" (some "p/") true = "p//xp//y" := by
  decide

/-- C3 amended: with a nonempty key prefix and a directory root the derived
key is `file.replace(root_path, key_prefix)`, which substitutes every
occurrence of the `root_path` string; when `root_path` occurs only as the
leading substring of the file path, the key is the prefix followed by the
file's relative sub-path verbatim (so the spec scenario yields
`media//x.mp4`). -/
theorem C3_key_replacement_amended (root_path rest kp : String)
    (hkp : kp ≠ "") (hroot : root_path ≠ "")
    (hocc : occursIn root_path.data rest.data = false) :
    deriveKey (root_path ++ rest) root_path (some kp) true = kp ++ rest := by
  have htr : truthy (some kp) = true := by simp [truthy, hkp]
  rw [deriveKey]
  simp only [htr, Bool.true_and, Bool.and_true, if_true, Bool.not_true,
    Bool.false_and, Bool.and_false]
  apply String.ext
  show pyReplace (root_path ++ rest).data root_path.data kp.data = (kp ++ rest).data
  rw [String.data_append, String.data_append]
  have hd : root_path.data ≠ [] := data_ne_nil hroot
  obtain ⟨p, ps, hp⟩ := List.exists_cons_of_ne_nil hd
  rw [hp] at hocc ⊢
  rw [pyReplace, pyReplaceGo_append _ _ _ (by simp),
    pyReplaceGo_no_occurrence _ _ _ hocc]

/-- A closed witness instance of C3 (amended): the spec scenario, with the
relative sub-path `/x.mp4` preserved after the prefix. -/
theorem C3_key_replacement_amended_witness :
    deriveKey ("/data/videos" ++ "/x.mp4") "/data/videos" (some "media/") true =
      "media/" ++ "/x.mp4" :=
  C3_key_replacement_amended "/data/videos" "/x.mp4" "media/" (by decide)
    (by decide) (by decide)

/-- C4: the key derivation of `upload_files` is a pure function of
(file path, root path, key prefix, root-is-directory) — equal inputs give
equal keys — and with no key prefix the derived key is exactly the file
path handed to the orchestrator (the normalized absolute path produced by
the enumerator). -/
theorem C4_derive_key_deterministic :
    (∀ (f₁ r₁ : String) (p₁ : Option String) (d₁ : Bool) (f₂ r₂ : String)
        (p₂ : Option String) (d₂ : Bool),
      f₁ = f₂ → r₁ = r₂ → p₁ = p₂ → d₁ = d₂ →
        deriveKey f₁ r₁ p₁ d₁ = deriveKey f₂ r₂ p₂ d₂) ∧
    (∀ (f r : String) (d : Bool), deriveKey f r none d = f) := by
  constructor
  · rintro f₁ r₁ p₁ d₁ _ _ _ _ rfl rfl rfl rfl
    rfl
  · intro f r d
    simp [deriveKey, truthy]

/-- A closed witness instance of C4: repeated derivation at identical
inputs, and the no-prefix identity, at a concrete path. -/
theorem C4_derive_key_deterministic_witness :
    deriveKey "/data/a.mp4" "/data" none true =
      deriveKey "/data/a.mp4" "/data" none true ∧
    deriveKey "/data/a.mp4" "/data" none true = "/data/a.mp4" :=
  ⟨C4_derive_key_deterministic.1 "/data/a.mp4" "/data" none true
      "/data/a.mp4" "/data" none true rfl rfl rfl rfl,
    C4_derive_key_deterministic.2 "/data/a.mp4" "/data" true⟩

/-- The existence oracle used in concrete runs: every key is absent. -/
def oracleAbsent : String → String → S3GetResult := fun _ _ => S3GetResult.noSuchKey

/-- A transfer that raises `"boom"` for the file `"f1"` and succeeds for
every other file. -/
def transferFailsF1 : String → String → String → Option String :=
  fun file _ _ => if file = "f1" then some "boom" else none

/-- C5 counterexample: with two files and a transport failure on the first,
the `try/except` around the `upload_files` loop re-raises, so the second
file is never processed — no key derivation, no existence check, no
transfer attempt for it. -/
theorem C5_counterexample_abort :
    ((uploadFiles oracleAbsent transferFailsF1 "/r" false true "b" none
        ["f1", "f2"]).1.map FileResult.file = ["f1"]) ∧
    (uploadFiles oracleAbsent transferFailsF1 "/r" false true "b" none
        ["f1", "f2"]).2 = some "boom" := by
  decide

/-- C5 amended: a transport failure aborts the batch.  If the files before
the failing one all complete without an exception, and the failing file's
transfer is invoked and raises, then `upload_files` processes exactly the
earlier files followed by the failing file and re-raises the error: none of
the remaining files is processed. -/
theorem C5_failure_aborts_amended
    (getObject : String → String → S3GetResult)
    (transfer : String → String → String → Option String)
    (root_path : String) (rep dir : Bool) (bucket : String) (kp : Option String)
    (xs : List String) (file : String) (rest : List String) (msg : String)
    (hxs : (uploadFiles getObject transfer root_path rep dir bucket kp xs).2 = none)
    (hcond : ((!(check_object_exists getObject bucket (deriveKey file root_path kp dir))) ||
      ((check_object_exists getObject bucket (deriveKey file root_path kp dir)) && rep)) = true)
    (hfail : transfer file bucket (deriveKey file root_path kp dir) = some msg) :
    uploadFiles getObject transfer root_path rep dir bucket kp (xs ++ file :: rest) =
      ((uploadFiles getObject transfer root_path rep dir bucket kp xs).1 ++
        [⟨file, deriveKey file root_path kp dir,
          check_object_exists getObject bucket (deriveKey file root_path kp dir), true⟩],
        some msg) := by
  induction xs with
  | nil =>
      simp only [List.nil_append, uploadFiles, hcond, if_true, hfail]
  | cons x xs ih =>
      rw [List.cons_append]
      rw [uploadFiles] at hxs
      rw [uploadFiles]
      conv_rhs => rw [uploadFiles]
      by_cases hcx : ((!(check_object_exists getObject bucket (deriveKey x root_path kp dir))) ||
          ((check_object_exists getObject bucket (deriveKey x root_path kp dir)) && rep)) = true
      · rw [if_pos hcx] at hxs ⊢
        cases htx : transfer x bucket (deriveKey x root_path kp dir) with
        | none =>
            rw [htx] at hxs
            simp at hxs
            rw [ih hxs]
            simp [hcx]
        | some m =>
            rw [htx] at hxs
            simp at hxs
      · rw [if_neg hcx] at hxs ⊢
        simp at hxs
        rw [ih hxs, if_neg hcx]
        simp

/-- A closed witness instance of C5 (amended): `"f0"` succeeds, `"f1"`
fails, and the batch output is exactly the two processed entries with the
error re-raised — `"f2"` untouched. -/
theorem C5_failure_aborts_amended_witness :
    (uploadFiles oracleAbsent transferFailsF1 "/r" false true "b" none
        (["f0"] ++ "f1" :: ["f2"])) =
      ((uploadFiles oracleAbsent transferFailsF1 "/r" false true "b" none ["f0"]).1 ++
        [⟨"f1", deriveKey "f1" "/r" none true,
          check_object_exists oracleAbsent "b" (deriveKey "f1" "/r" none true), true⟩],
        some "boom") :=
  C5_failure_aborts_amended oracleAbsent transferFailsF1 "/r" false true "b" none
    ["f0"] "f1" ["f2"] "boom" (by decide) (by decide) (by decide)

lemma pyReplaceStr_backslash_free (s : String) :
    hasBackslash (pyReplaceStr s "\\" "/") = false := by
  have hpat : ("\\" : String).data = ['\\'] := rfl
  have hrep : ("/" : String).data = ['/'] := rfl
  simp only [hasBackslash, pyReplaceStr, pyReplace, hpat, hrep]
  have := pyReplaceGo_backslash_free s.data
  simpa using this

lemma clean_file_list_no_backslash (root_path : String) (files exts : List String)
    (p : String) (hp : p ∈ clean_file_list root_path files exts) :
    hasBackslash p = false := by
  rw [clean_file_list] at hp
  simp only [List.mem_map] at hp
  obtain ⟨f, _, rfl⟩ := hp
  exact pyReplaceStr_backslash_free _

/-- C6 counterexample: for a single-file root, `main` passes `[root_path]`
to the orchestrator verbatim, so a root path written with backslash
separators is emitted with its backslashes intact. -/
theorem C6_counterexample_single_file_backslash :
    "C:\\u\\f.mp4" ∈ mainFiles false "C:\\u\\f.mp4" false [".mp4"] [] [] ∧
    hasBackslash "C:\\u\\f.mp4" = true := by
  decide

/-- C6 amended: every path emitted by the directory enumerator
`get_filenames` (flat or recursive) has gone through `clean_file_list`'s
`.replace("\\", "/")` and therefore contains no backslash; the single-file
branch of `main`, by contrast, emits `root_path` unmodified, which may
contain backslashes. -/
theorem C6_enumerator_no_backslash_amended (recursive : Bool)
    (root_path : String) (extensions : List String)
    (listdir : List (String × Bool)) (walk : List (String × List String))
    (p : String)
    (hp : p ∈ get_filenames recursive root_path extensions listdir walk) :
    hasBackslash p = false := by
  rw [get_filenames] at hp
  by_cases hrec : recursive
  · rw [if_pos hrec] at hp
    rw [get_filenames_recursive] at hp
    simp only [List.mem_flatten, List.mem_map] at hp
    obtain ⟨l, ⟨rf, _, rfl⟩, hpl⟩ := hp
    exact clean_file_list_no_backslash _ _ _ _ hpl
  · rw [if_neg hrec] at hp
    exact clean_file_list_no_backslash _ _ _ _ hp

/-- A closed witness instance of C6 (amended): a flat enumeration over one
listed file yields a normalized path with no backslash. -/
theorem C6_enumerator_no_backslash_amended_witness :
    hasBackslash "/d/a.mp4" = false :=
  C6_enumerator_no_backslash_amended false "/d" [] [("a.mp4", false)] []
    "/d/a.mp4" (by decide)

/-- C7: for a single-file root with a nonempty key prefix, the derived key
is the prefix concatenated with the file's base name — the component after
the final `'/'` — and every directory component of the path is
discarded. -/
theorem C7_single_file_key_basename (kp dirs base root_path : String)
    (hkp : kp ≠ "") (hbase : '/' ∉ base.data) :
    deriveKey (dirs ++ "/" ++ base) root_path (some kp) false = kp ++ base := by
  have htr : truthy (some kp) = true := by simp [truthy, hkp]
  rw [deriveKey]
  simp only [htr, Bool.and_false, Bool.not_false, Bool.and_true,
    Bool.true_and, Bool.false_eq_true, if_false, if_true]
  have hlast : lastComponent (dirs ++ "/" ++ base) = base := by
    apply String.ext
    show (splitChar '/' ((dirs ++ "/") ++ base).data).getLastD [] = base.data
    rw [String.data_append, String.data_append]
    have hsep : ("/" : String).data = ['/'] := rfl
    rw [hsep, List.append_assoc, List.singleton_append]
    rw [splitChar_getLastD_append, splitChar_of_not_mem _ _ hbase]
    rfl
  rw [hlast]
  rfl

/-- A closed witness instance of C7: the key for `/data/videos/x.mp4` with
prefix `media/` is `media/x.mp4`. -/
theorem C7_single_file_key_basename_witness :
    deriveKey ("/data/videos" ++ "/" ++ "x.mp4") "/data/videos/x.mp4"
      (some "media/") false = "media/" ++ "x.mp4" :=
  C7_single_file_key_basename "media/" "/data/videos" "x.mp4"
    "/data/videos/x.mp4" (by decide) (by decide)

lemma runProgress_getLastD (p : ProgressPercentage) (ds : List ℚ) (hne : ds ≠ []) :
    ((runProgress p ds).2).getLastD 0 =
      ((p.seen_so_far + ds.sum) / p.size) * 100 := by
  induction ds generalizing p with
  | nil => exact absurd rfl hne
  | cons d ds ih =>
      rcases ds with _ | ⟨d', ds'⟩
      · simp [runProgress, ProgressPercentage.call]
      · rw [runProgress]
        simp only [List.getLastD_cons]
        have hne' : (d' :: ds') ≠ [] := by simp
        have hout : ((runProgress (p.call d).1 (d' :: ds')).2) ≠ [] := by
          rw [runProgress]
          simp
        rw [getLastD_of_ne_nil hout _ 0, ih _ hne']
        simp only [ProgressPercentage.call, List.sum_cons]
        ring_nf

/-- C8: if the byte deltas of the progress callbacks sum to the file's
total size `S > 0`, the percentage computed by the last callback is exactly
`100` (which the source renders as `100.00` via `%.2f`; the final division
`S / S` is exact in floating point as well). -/
theorem C8_final_percentage_100 (filename : String) (size : ℚ)
    (deltas : List ℚ) (hS : 0 < size) (hsum : deltas.sum = size)
    (hne : deltas ≠ []) :
    ((runProgress (ProgressPercentage.init filename size) deltas).2).getLastD 0 =
      100 := by
  rw [runProgress_getLastD _ _ hne]
  simp only [ProgressPercentage.init, hsum]
  rw [zero_add, div_self (ne_of_gt hS)]
  norm_num

/-- A closed witness instance of C8: size 4, callback deltas 1 then 3. -/
theorem C8_final_percentage_100_witness :
    ((runProgress (ProgressPercentage.init "report.csv" 4) [1, 3]).2).getLastD 0 =
      100 :=
  C8_final_percentage_100 "report.csv" 4 [1, 3] (by norm_num) (by norm_num)
    (by simp)

/-- C9: with a nonempty extension filter, every path output by
`clean_file_list` arises from a listed file name that passes the
case-sensitive suffix test for some filter entry — names failing every
suffix are excluded — and the matching is exact: `".mp4"` accepts
`"foo.mp4"` but rejects `"foo.MP4"`. -/
theorem C9_extension_filter_excludes (root_path : String)
    (files exts : List String) (p : String) (hne : exts ≠ [])
    (hp : p ∈ clean_file_list root_path files exts) :
    (∃ f, f ∈ files ∧ exts.any (fun e => pyEndsWith f e) = true ∧
      p = pyReplaceStr (posixJoin root_path f) "\\" "/") ∧
    pyEndsWith "foo.mp4" ".mp4" = true ∧ pyEndsWith "foo.MP4" ".mp4" = false := by
  refine ⟨?_, by decide, by decide⟩
  rw [clean_file_list] at hp
  simp only [hne, if_true, ne_eq, not_false_iff, List.mem_map,
    List.mem_filter] at hp
  obtain ⟨f, ⟨hf, hfe⟩, rfl⟩ := hp
  exact ⟨f, hf, hfe, rfl⟩

/-- A closed witness instance of C9: filter `[".mp4"]` over
`["a.mp4", "b.txt"]`; the emitted path `/d/a.mp4` comes from `a.mp4`,
which passes the suffix test. -/
theorem C9_extension_filter_excludes_witness :
    (∃ f, f ∈ ["a.mp4", "b.txt"] ∧
      ([".mp4"].any (fun e => pyEndsWith f e)) = true ∧
      "/d/a.mp4" = pyReplaceStr (posixJoin "/d" f) "\\" "/") ∧
    pyEndsWith "foo.mp4" ".mp4" = true ∧ pyEndsWith "foo.MP4" ".mp4" = false :=
  C9_extension_filter_excludes "/d" ["a.mp4", "b.txt"] [".mp4"] "/d/a.mp4"
    (by decide) (by decide)

/-- C10: when the root path is a regular file, `main` hands the
orchestrator exactly `[root_path]`, for every value of the extensions
filter (and of the recursive flag): the extension filter is never applied
in this branch, so the file is uploaded even when its name ends with none
of the filter's suffixes. -/
theorem C10_single_file_ignores_extension_filter (root_path : String)
    (recursive : Bool) (extensions : List String)
    (listdir : List (String × Bool)) (walk : List (String × List String)) :
    mainFiles false root_path recursive extensions listdir walk = [root_path] := by
  simp [mainFiles]

end S3Up
